import Mathlib

/-!
Verification of the mio package (artyom/mio): a self-cleaning histogram
wrapper coordinating an idle timer over an active-user counter, plus a
metered stream decorator with idempotent close.

The coordinator goroutine (function decay in mio.go) is embedded as a
state machine: the state carries the wrapped histogram sample pool, the
decay delay, the local counter cnt, whether a one-shot timer is currently
pending (armed), and whether the cancellation context has been triggered.
Events are the serialized interactions the goroutine can observe: an
accepted delta over the channel ch, the pending timer firing, the
cancellation signal of Shutdown, and a pass-through Update on the wrapped
histogram. Real time is abstracted: a fire event may occur exactly when a
timer is pending.
-/

namespace Mio

/-- State of a SelfCleaningHistogram: the wrapped histogram sample pool
(the external Histogram contract: Update adds one observation, Clear
empties the pool, Count is the number of observations since the last
Clear), the delay passed to NewSelfCleaningHistogram (time.Duration as an
integer nanosecond count), the local counter cnt of the decay goroutine,
whether a one-shot timer created by time.AfterFunc is currently pending,
and whether the cancellation context has been cancelled (Shutdown). -/
structure SCH where
  samples : List Int
  delay : Int
  cnt : Int
  timerArmed : Bool
  isShutdown : Bool
deriving DecidableEq

/-- NewSelfCleaningHistogram from mio.go: wraps the given histogram, the
decay goroutine starts with a nil timer and cnt = 0 (Go zero value), and
the context is not cancelled. No validation is performed on delay. -/
def NewSelfCleaningHistogram (histogram : List Int) (delay : Int) : SCH :=
  { samples := histogram
    delay := delay
    cnt := 0
    timerArmed := false
    isShutdown := false }

/-- The first select branch of decay in mio.go: a delta i received on the
channel is added to cnt; if cnt becomes exactly 0 a one-shot timer for
the Clear callback is created (pending), otherwise any pending timer is
stopped (t.Stop when t is non-nil; if t was nil no timer was pending). -/
def decayRecv (s : SCH) (i : Int) : SCH :=
  if s.cnt + i = 0 then
    { s with cnt := s.cnt + i, timerArmed := true }
  else
    { s with cnt := s.cnt + i, timerArmed := false }

/-- The second select branch of decay in mio.go: on ctx.Done the pending
timer (if any) is stopped and the goroutine returns; afterwards the
channel is never read again, so Register and Done take their ctx.Done
branch and are no-ops. -/
def decayCancel (s : SCH) : SCH :=
  { s with timerArmed := false, isShutdown := true }

/-- Shutdown from mio.go calls the context cancel function; the decay
goroutine observes it (decayCancel). Cancelling an already cancelled
context has no effect on it, and decayCancel is idempotent. -/
def Shutdown (s : SCH) : SCH := decayCancel s

/-- Register from mio.go: select between sending +1 on the channel
(accepted by the decay goroutine if it is still running) and observing
ctx.Done (no-op after Shutdown). -/
def Register (s : SCH) : SCH :=
  if s.isShutdown then s else decayRecv s 1

/-- Done from mio.go: select between sending -1 on the channel and
observing ctx.Done (no-op after Shutdown). -/
def Done (s : SCH) : SCH :=
  if s.isShutdown then s else decayRecv s (-1)

/-- A pending one-shot timer fires: the callback h.Clear empties the
wrapped histogram sample pool, and the timer is no longer pending. When
no timer is pending nothing can fire. -/
def fireTimer (s : SCH) : SCH :=
  if s.timerArmed then { s with samples := [], timerArmed := false } else s

/-- Update is inherited from the wrapped Histogram: adds one observation
to the sample pool; the coordinator state is untouched. -/
def Update (s : SCH) (v : Int) : SCH :=
  { s with samples := s.samples ++ [v] }

/-- Count is inherited from the wrapped Histogram: number of observations
since the last Clear. -/
def Count (s : SCH) : Int := s.samples.length

/-- The serialized events a SelfCleaningHistogram can experience. -/
inductive Event where
  | register : Event
  | done : Event
  | fire : Event
  | shutdown : Event
  | update : Int → Event
deriving DecidableEq

/-- One event applied to the state. -/
def step (s : SCH) : Event → SCH
  | Event.register => Register s
  | Event.done => Done s
  | Event.fire => fireTimer s
  | Event.shutdown => Shutdown s
  | Event.update v => Update s v

/-- A finite event sequence applied in order. -/
def run (s : SCH) (es : List Event) : SCH := es.foldl step s

/-- States reachable from construction by any event sequence. -/
inductive Reachable : SCH → Prop where
  | init (samples : List Int) (delay : Int) :
      Reachable (NewSelfCleaningHistogram samples delay)
  | next (s : SCH) (e : Event) : Reachable s → Reachable (step s e)

/-- Events handled by the coordinator itself (everything except the
pass-through Update on the wrapped histogram). -/
def Event.isCoordinator : Event → Bool
  | Event.update _ => false
  | _ => true

/-- The signed delta an event carries on the coordination channel. -/
def Event.deltaOf : Event → Int
  | Event.register => 1
  | Event.done => -1
  | _ => 0

theorem run_nil (s : SCH) : run s [] = s := rfl

theorem run_cons (s : SCH) (e : Event) (es : List Event) :
    run s (e :: es) = run (step s e) es := rfl

/-- If a timer is pending in a reachable state, the counter is exactly 0
and the coordinator has not been shut down. -/
theorem reachable_armed (s : SCH) (hr : Reachable s) :
    s.timerArmed = true → s.cnt = 0 ∧ s.isShutdown = false := by
  induction hr with
  | init samples delay =>
      intro h
      simp [NewSelfCleaningHistogram] at h
  | next s e hrs ih =>
      cases e with
      | register =>
          simp only [step, Register]
          split
          · exact ih
          · rename_i hsd
            simp only [decayRecv]
            split
            · intro _
              exact ⟨by assumption, by simpa using hsd⟩
            · intro h
              simp at h
      | done =>
          simp only [step, Done]
          split
          · exact ih
          · rename_i hsd
            simp only [decayRecv]
            split
            · intro _
              exact ⟨by assumption, by simpa using hsd⟩
            · intro h
              simp at h
      | fire =>
          simp only [step, fireTimer]
          split
          · intro h
            simp at h
          · intro h
            rename_i hna
            simp [h] at hna
      | shutdown =>
          simp only [step, Shutdown, decayCancel]
          intro h
          simp at h
      | update v =>
          simp only [step, Update]
          exact ih

/-- In a reachable state that has been shut down, no timer is pending. -/
theorem reachable_shutdown_disarmed (s : SCH) (hr : Reachable s) :
    s.isShutdown = true → s.timerArmed = false := by
  intro hsd
  by_contra h
  rw [Bool.not_eq_false] at h
  rcases reachable_armed s hr h with ⟨_, hfalse⟩
  rw [hsd] at hfalse
  exact Bool.true_eq_false.mp hfalse

/-- C1, counterexample: the claimed iff-invariant fails in the initial
state of NewSelfCleaningHistogram. There the counter is 0 and the
coordinator is not shut down, yet no timer is pending: decay starts with
a nil timer and arms one only when a delta drives cnt to 0. -/
theorem C1_counterexample :
    Reachable (NewSelfCleaningHistogram [] 150000000) ∧
    ¬ ((NewSelfCleaningHistogram [] 150000000).timerArmed = true ↔
        ((NewSelfCleaningHistogram [] 150000000).cnt = 0 ∧
         (NewSelfCleaningHistogram [] 150000000).isShutdown = false)) :=
  ⟨Reachable.init [] 150000000, by decide⟩

/-- C1, amended: in every reachable state, if the idle timer is armed
then the counter is exactly 0 and the coordinator is not shut down; the
converse direction fails (initially, and after the timer fires, the
counter is 0 without a pending timer). -/
theorem C1_armed_invariant (s : SCH) (hr : Reachable s)
    (h : s.timerArmed = true) : s.cnt = 0 ∧ s.isShutdown = false :=
  reachable_armed s hr h

theorem C1_armed_invariant_witness :
    (step (step (NewSelfCleaningHistogram [] 150000000) Event.register)
        Event.done).cnt = 0 ∧
    (step (step (NewSelfCleaningHistogram [] 150000000) Event.register)
        Event.done).isShutdown = false :=
  C1_armed_invariant _
    (Reachable.next _ Event.done
      (Reachable.next _ Event.register (Reachable.init [] 150000000)))
    (by decide)

/-- C2: an accepted delta (+1 from Register, -1 from Done, accepted means
the coordinator is not shut down) is added to the counter; if the result
is exactly 0 a one-shot timer becomes pending whose fire action clears
the wrapped histogram sample pool, and if the result is non-zero no timer
remains pending (a pending one is stopped). -/
theorem C2_delta_processing (s : SCH) (e : Event) (i : Int)
    (he : (e = Event.register ∧ i = 1) ∨ (e = Event.done ∧ i = -1))
    (hs : s.isShutdown = false) :
    (step s e).cnt = s.cnt + i ∧
    (s.cnt + i = 0 →
      (step s e).timerArmed = true ∧ (fireTimer (step s e)).samples = []) ∧
    (s.cnt + i ≠ 0 → (step s e).timerArmed = false) := by
  rcases he with ⟨he, hi⟩ | ⟨he, hi⟩ <;> subst he <;> subst hi <;>
    simp only [step, Register, Done, hs, if_false, Bool.false_eq_true,
      decayRecv] <;>
    constructor
  · split <;> rfl
  · constructor
    · intro h
      rw [if_pos h]
      exact ⟨rfl, rfl⟩
    · intro h
      rw [if_neg h]
  · split <;> rfl
  · constructor
    · intro h
      rw [if_pos h]
      exact ⟨rfl, rfl⟩
    · intro h
      rw [if_neg h]

theorem C2_delta_processing_witness :
    (step (NewSelfCleaningHistogram [] 150000000) Event.register).cnt =
      (NewSelfCleaningHistogram [] 150000000).cnt + 1 ∧
    ((step (NewSelfCleaningHistogram [] 150000000)
        Event.register).timerArmed = false) :=
  ⟨(C2_delta_processing (NewSelfCleaningHistogram [] 150000000)
      Event.register 1 (Or.inl ⟨rfl, rfl⟩) rfl).1,
   (C2_delta_processing (NewSelfCleaningHistogram [] 150000000)
      Event.register 1 (Or.inl ⟨rfl, rfl⟩) rfl).2.2 (by decide)⟩

/-- C3: Shutdown is idempotent on the coordinator state, and once the
state is shut down every subsequent Register or Done is a no-op leaving
counter, timer and histogram samples unchanged. -/
theorem C3_shutdown_idempotent (s : SCH) :
    Shutdown (Shutdown s) = Shutdown s ∧
    (s.isShutdown = true → Register s = s ∧ Done s = s) := by
  constructor
  · rfl
  · intro h
    constructor
    · simp [Register, h]
    · simp [Done, h]

theorem C3_shutdown_idempotent_witness :
    Register (Shutdown (NewSelfCleaningHistogram [] 5)) =
      Shutdown (NewSelfCleaningHistogram [] 5) ∧
    Done (Shutdown (NewSelfCleaningHistogram [] 5)) =
      Shutdown (NewSelfCleaningHistogram [] 5) :=
  (C3_shutdown_idempotent (Shutdown (NewSelfCleaningHistogram [] 5))).2 rfl

/-- After shutdown (timer already stopped), every coordinator event is a
no-op on the state. -/
theorem step_fixed_of_shutdown (s : SCH) (hsd : s.isShutdown = true)
    (hta : s.timerArmed = false) (e : Event)
    (he : e.isCoordinator = true) : step s e = s := by
  cases e with
  | register => simp [step, Register, hsd]
  | done => simp [step, Done, hsd]
  | fire => simp [step, fireTimer, hta]
  | shutdown =>
      simp only [step, Shutdown, decayCancel]
      obtain ⟨sa, d, c, ta, sd⟩ := s
      simp only at hsd hta
      rw [hsd, hta]
  | update v => simp [Event.isCoordinator] at he

/-- C4: once a reachable state is shut down, any further sequence of
coordinator events (timer fires, repeated Shutdown, Register, Done)
leaves the whole state unchanged: samples present at shutdown time
persist and no automatic Clear can ever occur. -/
theorem C4_shutdown_freeze (s : SCH) (hr : Reachable s)
    (hsd : s.isShutdown = true) (es : List Event)
    (hes : ∀ e ∈ es, e.isCoordinator = true) : run s es = s := by
  have hta := reachable_shutdown_disarmed s hr hsd
  revert hes
  induction es with
  | nil =>
      intro _
      rfl
  | cons e es ih =>
      intro hes
      rw [run_cons, step_fixed_of_shutdown s hsd hta e (hes e (by simp))]
      exact ih fun e' he' => hes e' (by simp [he'])

theorem C4_shutdown_freeze_witness :
    run (step (NewSelfCleaningHistogram [7] 5) Event.shutdown)
        [Event.fire, Event.shutdown, Event.register, Event.done] =
      step (NewSelfCleaningHistogram [7] 5) Event.shutdown :=
  C4_shutdown_freeze _
    (Reachable.next _ Event.shutdown (Reachable.init [7] 5))
    rfl
    [Event.fire, Event.shutdown, Event.register, Event.done]
    (by decide)

/-- C9: a timer fire modifies only the sample pool; the counter, the
shutdown status and the configured delay are unchanged, and the
subsequent processing of any delta (new counter value and arm/disarm
decision) is the same as it would have been without the fire. -/
theorem C9_fire_frame (s : SCH) :
    (fireTimer s).cnt = s.cnt ∧
    (fireTimer s).isShutdown = s.isShutdown ∧
    (fireTimer s).delay = s.delay ∧
    (∀ i : Int,
      (decayRecv (fireTimer s) i).cnt = (decayRecv s i).cnt ∧
      (decayRecv (fireTimer s) i).timerArmed =
        (decayRecv s i).timerArmed) := by
  unfold fireTimer
  split
  · refine ⟨rfl, rfl, rfl, fun i => ?_⟩
    unfold decayRecv
    split <;> exact ⟨rfl, rfl⟩
  · refine ⟨rfl, rfl, rfl, fun i => ⟨rfl, rfl⟩⟩

/-- C10: construction performs no validation on the delay: any value,
zero or negative included, yields a started coordinator in the same
initial state, and with a non-positive delay the timer is still created
whenever a delta drives the counter to exactly 0, its fire clearing the
sample pool (time.AfterFunc with a non-positive duration fires
immediately; real time is abstracted, so the armed timer's fire event is
immediately available). -/
theorem C10_delay_unvalidated (samples : List Int) (delay : Int)
    (hd : delay ≤ 0) :
    (NewSelfCleaningHistogram samples delay).samples = samples ∧
    (NewSelfCleaningHistogram samples delay).delay = delay ∧
    (NewSelfCleaningHistogram samples delay).cnt = 0 ∧
    (NewSelfCleaningHistogram samples delay).timerArmed = false ∧
    (NewSelfCleaningHistogram samples delay).isShutdown = false ∧
    (∀ s : SCH, ∀ i : Int, s.delay = delay → s.isShutdown = false →
      s.cnt + i = 0 →
      (decayRecv s i).timerArmed = true ∧
      (fireTimer (decayRecv s i)).samples = []) := by
  refine ⟨rfl, rfl, rfl, rfl, rfl, fun s i _ _ hz => ?_⟩
  unfold decayRecv
  rw [if_pos hz]
  exact ⟨rfl, rfl⟩

theorem C10_delay_unvalidated_witness :
    (NewSelfCleaningHistogram [3] (-5)).isShutdown = false ∧
    (decayRecv (decayRecv (NewSelfCleaningHistogram [3] (-5)) 1)
        (-1)).timerArmed = true ∧
    (fireTimer (decayRecv (decayRecv (NewSelfCleaningHistogram [3] (-5)) 1)
        (-1))).samples = [] :=
  ⟨(C10_delay_unvalidated [3] (-5) (by decide)).2.2.2.2.1,
   ((C10_delay_unvalidated [3] (-5) (by decide)).2.2.2.2.2
      (decayRecv (NewSelfCleaningHistogram [3] (-5)) 1) (-1)
      rfl rfl (by decide)).1,
   ((C10_delay_unvalidated [3] (-5) (by decide)).2.2.2.2.2
      (decayRecv (NewSelfCleaningHistogram [3] (-5)) 1) (-1)
      rfl rfl (by decide)).2⟩

/-- Effect of k consecutive accepted Register deltas: the counter grows
by k, the coordinator stays running, and for k positive the timer is
pending exactly when the final counter is 0. -/
theorem run_replicate_register (k : Nat) : ∀ s : SCH,
    s.isShutdown = false →
    (run s (List.replicate k Event.register)).cnt = s.cnt + k ∧
    (run s (List.replicate k Event.register)).isShutdown = false ∧
    (run s (List.replicate k Event.register)).timerArmed =
      (if k = 0 then s.timerArmed else decide (s.cnt + k = 0)) := by
  induction k with
  | zero =>
      intro s hs
      simp [run, hs]
  | succ k ih =>
      intro s hs
      rw [List.replicate_succ, run_cons]
      have hstep : step s Event.register = decayRecv s 1 := by
        simp [step, Register, hs]
      have h1 : (decayRecv s 1).isShutdown = false := by
        unfold decayRecv
        split <;> simpa using hs
      have h2 : (decayRecv s 1).cnt = s.cnt + 1 := by
        unfold decayRecv
        split <;> rfl
      rw [hstep]
      rcases ih (decayRecv s 1) h1 with ⟨hc, hsd, hta⟩
      refine ⟨?_, hsd, ?_⟩
      · rw [hc, h2]
        push_cast
        ring
      · rw [hta, if_neg k.succ_ne_zero]
        by_cases hk : k = 0
        · subst hk
          rw [if_pos rfl]

          unfold decayRecv
          split <;> rename_i hz
          · simp only [Nat.cast_one]
            exact (decide_eq_true hz).symm
          · simp only [Nat.cast_one]
            exact (decide_eq_false hz).symm
        · rw [if_neg hk, h2]
          have harith : s.cnt + 1 + (k : Int) = s.cnt + ((k : Nat) + 1 : Nat) := by
            push_cast
            ring
          rw [harith]

/-- C5: misuse with more Done than Register is tolerated: in a reachable
running state with a negative counter no timer is pending, it stays
unarmed while further Register deltas leave the counter below zero, and
once exactly enough Register deltas bring the counter back to exactly 0
the timer is armed again. -/
theorem C5_negative_counter (s : SCH) (hr : Reachable s)
    (hs : s.isShutdown = false) (hneg : s.cnt < 0) :
    s.timerArmed = false ∧
    (∀ k : Nat, (k : Int) < -s.cnt →
      (run s (List.replicate k Event.register)).timerArmed = false) ∧
    (run s (List.replicate (-s.cnt).toNat Event.register)).cnt = 0 ∧
    (run s (List.replicate (-s.cnt).toNat Event.register)).timerArmed =
      true := by
  have harm : s.timerArmed = false := by
    by_contra h
    rw [Bool.not_eq_false] at h
    rcases reachable_armed s hr h with ⟨hz, _⟩
    omega
  have hcast : ((-s.cnt).toNat : Int) = -s.cnt :=
    Int.toNat_of_nonneg (by omega)
  refine ⟨harm, ?_, ?_, ?_⟩
  · intro k hk
    rcases run_replicate_register k s hs with ⟨_, _, hta⟩
    rw [hta]
    by_cases hk0 : k = 0
    · rw [if_pos hk0]
      exact harm
    · rw [if_neg hk0]
      simp only [decide_eq_false_iff_not]
      omega
  · rcases run_replicate_register (-s.cnt).toNat s hs with ⟨hc, _, _⟩
    rw [hc, hcast]
    ring
  · rcases run_replicate_register (-s.cnt).toNat s hs with ⟨_, _, hta⟩
    have hk0 : (-s.cnt).toNat ≠ 0 := by omega
    rw [hta, if_neg hk0]
    simp only [decide_eq_true_eq]
    omega

theorem C5_negative_counter_witness :
    (step (NewSelfCleaningHistogram [] 5) Event.done).timerArmed = false ∧
    (run (step (NewSelfCleaningHistogram [] 5) Event.done)
      (List.replicate
        (-(step (NewSelfCleaningHistogram [] 5) Event.done).cnt).toNat
        Event.register)).cnt = 0 ∧
    (run (step (NewSelfCleaningHistogram [] 5) Event.done)
      (List.replicate
        (-(step (NewSelfCleaningHistogram [] 5) Event.done).cnt).toNat
        Event.register)).timerArmed = true :=
  ⟨(C5_negative_counter _
      (Reachable.next _ Event.done (Reachable.init [] 5))
      (by decide) (by decide)).1,
   (C5_negative_counter _
      (Reachable.next _ Event.done (Reachable.init [] 5))
      (by decide) (by decide)).2.2.1,
   (C5_negative_counter _
      (Reachable.next _ Event.done (Reachable.init [] 5))
      (by decide) (by decide)).2.2.2⟩

/-- The state of the test scenario after two Register, three Update, two
Done events, starting from an empty histogram with a 150 ms delay. -/
def exampleAfterFirstBatch : SCH :=
  run (NewSelfCleaningHistogram [] 150000000)
    [Event.register, Event.register, Event.update 150, Event.update 100,
     Event.update 50, Event.done, Event.done]

/-- The state of the test scenario after the armed timer fires. -/
def exampleAfterClear : SCH := step exampleAfterFirstBatch Event.fire

/-- The state of the test scenario after a new Register and Update 50. -/
def exampleAfterResume : SCH :=
  run exampleAfterClear [Event.register, Event.update 50]

/-- C6: the documented scenario. After Register, Register, Update 150,
Update 100, Update 50, Done, Done the count is 3 and the idle timer is
pending; after it fires the count is 0; after Register and Update 50 no
timer is pending, so firing is impossible and the samples survive any
wait; a further Update 150 gives count 2. -/
theorem C6_example_trace :
    Count exampleAfterFirstBatch = 3 ∧
    exampleAfterFirstBatch.timerArmed = true ∧
    Count exampleAfterClear = 0 ∧
    exampleAfterResume.timerArmed = false ∧
    fireTimer exampleAfterResume = exampleAfterResume ∧
    Count (Update exampleAfterResume 150) = 2 := by
  decide

/-- Effect of a sequence of accepted deltas: the counter grows by the sum
of the carried deltas and the coordinator stays running. -/
theorem run_deltas_cnt (es : List Event) : ∀ s : SCH,
    s.isShutdown = false →
    (∀ e ∈ es, e = Event.register ∨ e = Event.done) →
    (run s es).cnt = s.cnt + (es.map Event.deltaOf).sum ∧
    (run s es).isShutdown = false := by
  induction es with
  | nil =>
      intro s hs _
      simpa [run] using hs
  | cons e es ih =>
      intro s hs hes
      have htail : ∀ e' ∈ es, e' = Event.register ∨ e' = Event.done :=
        fun e' h' => hes e' (by simp [h'])
      have hrec : ∀ i : Int,
          (decayRecv s i).isShutdown = false ∧
          (decayRecv s i).cnt = s.cnt + i := by
        intro i
        unfold decayRecv
        constructor
        · split <;> simpa using hs
        · split <;> rfl
      rcases hes e (by simp) with rfl | rfl
      · rw [run_cons]
        have hstep : step s Event.register = decayRecv s 1 := by
          simp [step, Register, hs]
        rw [hstep]
        rcases ih (decayRecv s 1) (hrec 1).1 htail with ⟨hc, hsd⟩
        refine ⟨?_, hsd⟩
        rw [hc, (hrec 1).2]
        simp [Event.deltaOf]
        ring
      · rw [run_cons]
        have hstep : step s Event.done = decayRecv s (-1) := by
          simp [step, Done, hs]
        rw [hstep]
        rcases ih (decayRecv s (-1)) (hrec (-1)).1 htail with ⟨hc, hsd⟩
        refine ⟨?_, hsd⟩
        rw [hc, (hrec (-1)).2]
        simp [Event.deltaOf]
        ring

/-- The sum of the deltas of a Register/Done sequence is the number of
Register events minus the number of Done events. -/
theorem deltas_sum_eq_counts (es : List Event)
    (hes : ∀ e ∈ es, e = Event.register ∨ e = Event.done) :
    (es.map Event.deltaOf).sum =
      ((es.countP fun e => decide (e = Event.register)) : Int) -
      ((es.countP fun e => decide (e = Event.done)) : Int) := by
  induction es with
  | nil => simp
  | cons e es ih =>
      have htail : ∀ e' ∈ es, e' = Event.register ∨ e' = Event.done :=
        fun e' h' => hes e' (by simp [h'])
      rcases hes e (by simp) with rfl | rfl <;>
        simp [List.countP_cons, Event.deltaOf, ih htail] <;> ring

/-- C7: the final counter after a sequence of accepted Register/Done
deltas is the initial counter plus the number of Register deltas minus
the number of Done deltas, and it is invariant under any permutation of
the delivery order. -/
theorem C7_counter_commutative (s : SCH) (hs : s.isShutdown = false)
    (es : List Event)
    (hes : ∀ e ∈ es, e = Event.register ∨ e = Event.done) :
    (run s es).cnt = s.cnt +
      ((es.countP fun e => decide (e = Event.register)) : Int) -
      ((es.countP fun e => decide (e = Event.done)) : Int) ∧
    (∀ es', List.Perm es' es → (run s es').cnt = (run s es).cnt) := by
  constructor
  · rw [(run_deltas_cnt es s hs hes).1, deltas_sum_eq_counts es hes]
    ring
  · intro es' hp
    have hes' : ∀ e ∈ es', e = Event.register ∨ e = Event.done :=
      fun e he => hes e (hp.mem_iff.mp he)
    rw [(run_deltas_cnt es' s hs hes').1, (run_deltas_cnt es s hs hes).1]
    rw [List.Perm.sum_eq (hp.map Event.deltaOf)]

theorem C7_counter_commutative_witness :
    (run (NewSelfCleaningHistogram [] 5)
        [Event.done, Event.register, Event.register]).cnt =
      (NewSelfCleaningHistogram [] 5).cnt +
        (([Event.done, Event.register, Event.register].countP
            fun e => decide (e = Event.register)) : Int) -
        (([Event.done, Event.register, Event.register].countP
            fun e => decide (e = Event.done)) : Int) ∧
    (run (NewSelfCleaningHistogram [] 5)
        [Event.register, Event.done, Event.register]).cnt =
      (run (NewSelfCleaningHistogram [] 5)
        [Event.done, Event.register, Event.register]).cnt :=
  ⟨(C7_counter_commutative (NewSelfCleaningHistogram [] 5) rfl
      [Event.done, Event.register, Event.register] (by decide)).1,
   (C7_counter_commutative (NewSelfCleaningHistogram [] 5) rfl
      [Event.done, Event.register, Event.register] (by decide)).2
      [Event.register, Event.done, Event.register] (by decide)⟩

/-- Modelled from the spec: the metered Writer/Reader decorator code is
not under src (mio_test.go references NewWriter and Close but the file
defining the decorator is absent). Per the spec the decorator owns the
underlying stream handle, a Histogram reference with an optional
Registrar capability decided at construction, and one closed flag
guarding teardown. The model tracks the closed flag, the capability, how
many compensating Done calls were issued to the Registrar, and whether
the underlying resources were released. -/
structure MeteredWriter where
  closed : Bool
  hasRegistrar : Bool
  doneIssued : Nat
  released : Bool
deriving DecidableEq

/-- Modelled from the spec: Close of the metered decorator. Only the
first invocation releases the underlying resources and issues the
compensating Done on the Registrar (when the bound histogram has that
capability); every later invocation is a no-op that returns the same nil
error as a successful first close. -/
def closeWriter (w : MeteredWriter) : MeteredWriter × Option String :=
  if w.closed then (w, none)
  else
    ({ closed := true
       hasRegistrar := w.hasRegistrar
       doneIssued := w.doneIssued + (if w.hasRegistrar then 1 else 0)
       released := true }, none)

/-- C8: close is idempotent. The first Close on an open decorator returns
nil, releases the resources, and issues at most one compensating Done;
a second Close changes nothing and returns the same nil result. -/
theorem C8_close_idempotent (w : MeteredWriter) (h : w.closed = false) :
    (closeWriter w).2 = none ∧
    (closeWriter w).1.released = true ∧
    (closeWriter w).1.doneIssued ≤ w.doneIssued + 1 ∧
    closeWriter (closeWriter w).1 = ((closeWriter w).1, none) := by
  have hne : ¬w.closed = true := by simp [h]
  rw [closeWriter, if_neg hne]
  refine ⟨rfl, rfl, ?_, ?_⟩
  · split <;> simp
  · rw [closeWriter]
    rfl

theorem C8_close_idempotent_witness :
    (closeWriter (MeteredWriter.mk false true 0 false)).2 = none ∧
    (closeWriter (MeteredWriter.mk false true 0 false)).1.released =
      true ∧
    (closeWriter (MeteredWriter.mk false true 0 false)).1.doneIssued ≤
      (MeteredWriter.mk false true 0 false).doneIssued + 1 ∧
    closeWriter (closeWriter (MeteredWriter.mk false true 0 false)).1 =
      ((closeWriter (MeteredWriter.mk false true 0 false)).1, none) :=
  C8_close_idempotent (MeteredWriter.mk false true 0 false) rfl

end Mio
